import Mathlib

/-!
Shallow embedding of the multitouch controls overlay
(`src/components/game/controls-overlay.tsx`): a single touch router that
binds touch identifiers to a virtual joystick or to one of four action
buttons, and emits normalized control events.

Coordinates and all arithmetic are modelled over `ℝ`; `Math.atan2 (dy, dx)`
is `Complex.arg ⟨dx, dy⟩` (both return an angle in `(-π, π]` and send the
zero vector to `0`), and the JavaScript remainder `%` (truncated division)
is `jsMod`.
-/

namespace Multitouch

/-- Source: `export type ActionType = 'attack' | 'dodge' | 'jump' | 'run'`. -/
inductive ActionType where
  | attack
  | dodge
  | jump
  | run
deriving DecidableEq, Repr

/-- Source: `interface JoystickData { x; y; angle; distance }`. -/
structure JoystickData where
  x : ℝ
  y : ℝ
  angle : ℝ
  distance : ℝ

/-- Touch identifiers (`t.identifier`), an opaque comparable key. -/
abbrev TouchId := ℕ

/-- One entry of `e.nativeEvent.changedTouches`. -/
structure Touch where
  identifier : TouchId
  pageX : ℝ
  pageY : ℝ

/-- The events the overlay emits through its callbacks
(`onJoystickMove`, `onJoystickRelease`, `onButtonPress`, `onButtonRelease`). -/
inductive OutEvent where
  | joystickMove (d : JoystickData)
  | joystickRelease
  | buttonPress (a : ActionType)
  | buttonRelease (a : ActionType)

/-- Construction-time configuration: `joystickSize` prop (default `140`). -/
structure Config where
  joystickSize : ℝ

/-- The mutable state of the overlay: measured size (`overlaySize`),
knob offset (`joyPos`), `joyActive`, `joystickTouchId` ref,
`pressedButtons` set and the `buttonTouches` map (modelled as a function
`TouchId → Option ActionType`). -/
structure OverlayState where
  width : ℝ
  height : ℝ
  joyPos : ℝ × ℝ
  joyActive : Bool
  joystickTouchId : Option TouchId
  pressedButtons : Finset ActionType
  buttonTouches : TouchId → Option ActionType

/-- Initial state: no touch bound, joystick inactive and centered, no
button pressed; `overlaySize` starts from the window dimensions. -/
def initState (w h : ℝ) : OverlayState :=
  { width := w
    height := h
    joyPos := (0, 0)
    joyActive := false
    joystickTouchId := none
    pressedButtons := ∅
    buttonTouches := fun _ => none }

/-- Source: `const maxDistance = joystickSize / 2 - 20`. -/
noncomputable def maxDistance (cfg : Config) : ℝ := cfg.joystickSize / 2 - 20

/-- Source: `const joystickLeft = 30`. -/
def joystickLeft : ℝ := 30

/-- Source: `const joystickBottom = 40`. -/
def joystickBottom : ℝ := 40

/-- Source: `const joystickCenter = { x: joystickLeft + joystickSize / 2,
y: overlaySize.height - (joystickBottom + joystickSize / 2) }`. -/
noncomputable def joystickCenter (cfg : Config) (s : OverlayState) : ℝ × ℝ :=
  (joystickLeft + cfg.joystickSize / 2,
   s.height - (joystickBottom + cfg.joystickSize / 2))

/-- Source: `const buttonRadius = 30`. -/
def buttonRadius : ℝ := 30

/-- One entry of the `buttons` array (label and color are presentation
only and omitted). -/
structure ButtonSpec where
  type : ActionType
  right : ℝ
  bottom : ℝ

/-- The `buttons` array, in declared order. -/
def buttons : List ButtonSpec :=
  [⟨ActionType.attack, 20, 80⟩,
   ⟨ActionType.dodge, 100, 20⟩,
   ⟨ActionType.jump, 100, 140⟩,
   ⟨ActionType.run, 180, 80⟩]

/-- Source: `getButtonCenter`. -/
def getButtonCenter (s : OverlayState) (b : ButtonSpec) : ℝ × ℝ :=
  (s.width - (b.right + buttonRadius), s.height - (b.bottom + buttonRadius))

/-- Source: `hitTestJoystick`: Euclidean distance from the joystick center is at
most `joystickSize / 2`. -/
def hitTestJoystick (cfg : Config) (s : OverlayState) (x y : ℝ) : Prop :=
  Real.sqrt ((x - (joystickCenter cfg s).1) * (x - (joystickCenter cfg s).1) +
      (y - (joystickCenter cfg s).2) * (y - (joystickCenter cfg s).2)) ≤
    cfg.joystickSize / 2

/-- Hit predicate for a single button (the loop body of `hitTestButtons`). -/
def buttonHit (s : OverlayState) (b : ButtonSpec) (x y : ℝ) : Prop :=
  Real.sqrt ((x - (getButtonCenter s b).1) * (x - (getButtonCenter s b).1) +
      (y - (getButtonCenter s b).2) * (y - (getButtonCenter s b).2)) ≤
    buttonRadius

open Classical in
/-- Source: `hitTestButtons`: iterate the `buttons` array in order, return the
first button whose hit circle contains the point, else `none`. -/
noncomputable def hitTestButtons (s : OverlayState) (x y : ℝ) :
    Option ActionType :=
  buttons.findSome? fun b => if buttonHit s b x y then some b.type else none

/-- Model of `Math.atan2 (y, x)`: the argument of the complex number `x + y·I`,
in `(-π, π]`, with `atan2 (0, 0) = 0`. -/
noncomputable def atan2 (y x : ℝ) : ℝ := Complex.arg ⟨x, y⟩

open Classical in
/-- JavaScript truncation toward zero (`Math.trunc`), used by `%`. -/
noncomputable def jsTrunc (x : ℝ) : ℤ := if 0 ≤ x then ⌊x⌋ else -⌊-x⌋

/-- The JavaScript remainder `a % b` (truncated division, sign of the
dividend). -/
noncomputable def jsMod (a b : ℝ) : ℝ := a - b * jsTrunc (a / b)

open Classical in
/-- Source: `moveJoystickWithTouch`: from the raw offset `(dx, dy)` of the touch
from the joystick center, compute the rendered knob offset (radially
clamped to `maxDistance`) and the emitted `JoystickData`. Returns the new
`joyPos` together with the payload passed to `onJoystickMove`. -/
noncomputable def moveJoystickWithTouch (cfg : Config) (s : OverlayState)
    (x y : ℝ) : (ℝ × ℝ) × JoystickData :=
  let dx := x - (joystickCenter cfg s).1
  let dy := y - (joystickCenter cfg s).2
  let distance := Real.sqrt (dx * dx + dy * dy)
  let finalX :=
    if distance > maxDistance cfg then
      Real.cos (atan2 dy dx) * maxDistance cfg
    else dx
  let finalY :=
    if distance > maxDistance cfg then
      Real.sin (atan2 dy dx) * maxDistance cfg
    else dy
  let normalizedDistance := min (distance / maxDistance cfg) 1
  let angle := jsMod (atan2 dy dx * 180 / Real.pi + 360) 360
  let normalizedX := max (-1) (min 1 (dx / maxDistance cfg))
  let normalizedY := max (-1) (min 1 (dy / maxDistance cfg))
  ((finalX, finalY),
   { x := normalizedX
     y := normalizedY
     angle := angle
     distance := normalizedDistance })

/-- Source: `startJoystickWithTouch`: record the binding, set `joyActive`, and
immediately update the position (emitting an initial joystick move). -/
noncomputable def startJoystickWithTouch (cfg : Config) (s : OverlayState)
    (id : TouchId) (x y : ℝ) : OverlayState × List OutEvent :=
  let s1 := { s with joystickTouchId := some id, joyActive := true }
  let r := moveJoystickWithTouch cfg s1 x y
  ({ s1 with joyPos := r.1 }, [OutEvent.joystickMove r.2])

/-- Source: `releaseJoystick`: no-op unless `joyActive`; otherwise clear the
binding, deactivate, recenter the knob, and emit the release. -/
def releaseJoystick (s : OverlayState) : OverlayState × List OutEvent :=
  if s.joyActive then
    ({ s with joystickTouchId := none, joyActive := false, joyPos := (0, 0) },
     [OutEvent.joystickRelease])
  else (s, [])

open Classical in
/-- The body of the `handleTouchStart` loop for one changed touch. -/
noncomputable def processStartTouch (cfg : Config) (s : OverlayState)
    (t : Touch) : OverlayState × List OutEvent :=
  if s.joystickTouchId = none ∧ hitTestJoystick cfg s t.pageX t.pageY then
    startJoystickWithTouch cfg s t.identifier t.pageX t.pageY
  else
    match hitTestButtons s t.pageX t.pageY with
    | some btn =>
        ({ s with
            buttonTouches := Function.update s.buttonTouches t.identifier
              (some btn)
            pressedButtons := insert btn s.pressedButtons },
         [OutEvent.buttonPress btn])
    | none => (s, [])

/-- The body of the `handleTouchMove` loop for one changed touch:
only the touch bound to the joystick has any effect. -/
noncomputable def processMoveTouch (cfg : Config) (s : OverlayState)
    (t : Touch) : OverlayState × List OutEvent :=
  if s.joystickTouchId = some t.identifier then
    let r := moveJoystickWithTouch cfg s t.pageX t.pageY
    ({ s with joyPos := r.1 }, [OutEvent.joystickMove r.2])
  else (s, [])

/-- The body of the `handleTouchEnd` loop for one changed touch: release
the joystick if this touch drives it, then release its button binding if
it has one. -/
noncomputable def processEndTouch (s : OverlayState) (t : Touch) :
    OverlayState × List OutEvent :=
  let r1 :=
    if s.joystickTouchId = some t.identifier then releaseJoystick s
    else (s, [])
  match r1.1.buttonTouches t.identifier with
  | some btn =>
      ({ r1.1 with
          buttonTouches := Function.update r1.1.buttonTouches t.identifier none
          pressedButtons := r1.1.pressedButtons.erase btn },
       r1.2 ++ [OutEvent.buttonRelease btn])
  | none => r1

/-- Fold a per-touch handler over a batch of changed touches,
accumulating emitted events in order. -/
noncomputable def runBatch
    (f : OverlayState → Touch → OverlayState × List OutEvent)
    (s : OverlayState) (ts : List Touch) : OverlayState × List OutEvent :=
  ts.foldl (fun acc t =>
    let r := f acc.1 t
    (r.1, acc.2 ++ r.2)) (s, [])

/-- Source: `handleTouchStart`. -/
noncomputable def handleTouchStart (cfg : Config) (s : OverlayState)
    (ts : List Touch) : OverlayState × List OutEvent :=
  runBatch (processStartTouch cfg) s ts

/-- Source: `handleTouchMove`. -/
noncomputable def handleTouchMove (cfg : Config) (s : OverlayState)
    (ts : List Touch) : OverlayState × List OutEvent :=
  runBatch (processMoveTouch cfg) s ts

/-- Source: `handleTouchEnd` (also installed as the `onTouchCancel` handler). -/
noncomputable def handleTouchEnd (s : OverlayState) (ts : List Touch) :
    OverlayState × List OutEvent :=
  runBatch (fun s' t => processEndTouch s' t) s ts

open Classical in
/-- The `onLayout` handler: `if (width && height) setOverlaySize(...)`;
a zero width or height is falsy and the event is ignored. -/
noncomputable def handleLayout (s : OverlayState) (w h : ℝ) : OverlayState :=
  if w ≠ 0 ∧ h ≠ 0 then { s with width := w, height := h } else s

/-- One incoming event batch from the host surface. -/
inductive InEvent where
  | start (ts : List Touch)
  | move (ts : List Touch)
  | touchEnd (ts : List Touch)
  | touchCancel (ts : List Touch)
  | layout (w h : ℝ)

/-- Dispatch one event batch to its handler (cancel is wired to the same
handler as end). -/
noncomputable def step (cfg : Config) (s : OverlayState) :
    InEvent → OverlayState × List OutEvent
  | InEvent.start ts => handleTouchStart cfg s ts
  | InEvent.move ts => handleTouchMove cfg s ts
  | InEvent.touchEnd ts => handleTouchEnd s ts
  | InEvent.touchCancel ts => handleTouchEnd s ts
  | InEvent.layout w h => (handleLayout s w h, [])

/-- Run a sequence of event batches from a state. -/
noncomputable def run (cfg : Config) (s : OverlayState) :
    List InEvent → OverlayState
  | [] => s
  | e :: es => run cfg (step cfg s e).1 es

/-- The control a touch id is currently bound to, read off the state. -/
inductive Control where
  | joystick
  | button (a : ActionType)
deriving DecidableEq, Repr

open Classical in
/-- The binding table as a partial map from touch ids to controls. -/
noncomputable def bindingOf (s : OverlayState) (i : TouchId) : Option Control :=
  if s.joystickTouchId = some i then some Control.joystick
  else (s.buttonTouches i).map Control.button

/-- Modelled from the spec: `clamp(v, lo, hi)`, the value `v` forced into
the interval `[lo, hi]`. -/
noncomputable def clamp (v lo hi : ℝ) : ℝ := min (max v lo) hi

open Classical in
/-- Modelled from the spec: when the offset magnitude exceeds `m`, clamp
by projecting onto the circle of radius `m` at the same angle (preserve
direction, cap magnitude); otherwise keep the offset. -/
noncomputable def specClampedOffset (m dx dy : ℝ) : ℝ × ℝ :=
  if Real.sqrt (dx * dx + dy * dy) > m then
    (m * (dx / Real.sqrt (dx * dx + dy * dy)),
     m * (dy / Real.sqrt (dx * dx + dy * dy)))
  else (dx, dy)

/-- Invariant: every touch id is bound to at most one control, stated as:
the touch driving the joystick has no entry in the button binding table. -/
def TouchExclusive (s : OverlayState) : Prop :=
  ∀ i, s.joystickTouchId = some i → s.buttonTouches i = none

/-- Invariant: at most one touch is bound to the joystick. -/
def JoystickUnique (s : OverlayState) : Prop :=
  ∀ i j, s.joystickTouchId = some i → s.joystickTouchId = some j → i = j

/-- Invariant: each individual button is pressed by at most one touch. -/
def ButtonUnique (s : OverlayState) : Prop :=
  ∀ i j a, s.buttonTouches i = some a → s.buttonTouches j = some a → i = j

/-- Invariant: the joystick is active exactly when it is needed for the
release path, namely whenever some touch is bound to it. -/
def ActiveSync (s : OverlayState) : Prop :=
  ∀ i, s.joystickTouchId = some i → s.joyActive = true

/-- A well-formed begin batch: the host delivers pairwise distinct touch
ids, none of which is still bound from an earlier lifetime (ids are only
reused after release). -/
def FreshBatch (s : OverlayState) (ts : List Touch) : Prop :=
  ts.Pairwise (fun t u => t.identifier ≠ u.identifier) ∧
    ∀ t ∈ ts, bindingOf s t.identifier = none

/-- Well-formedness of a single event batch against the current state:
only begin batches are constrained. -/
def WFEvent (s : OverlayState) : InEvent → Prop
  | InEvent.start ts => FreshBatch s ts
  | _ => True

/-- Well-formedness of an event trace: each batch is well-formed against
the state it is delivered in. -/
noncomputable def WFRun (cfg : Config) (s : OverlayState) :
    List InEvent → Prop
  | [] => True
  | e :: es => WFEvent s e ∧ WFRun cfg (step cfg s e).1 es

/-- The event is not a begin batch mentioning touch id `i` (begin batches
for a live touch id do not occur in a well-formed stream). -/
def NoStartOf (i : TouchId) : InEvent → Prop
  | InEvent.start ts => ∀ t ∈ ts, t.identifier ≠ i
  | _ => True

/-- The default configuration (`joystickSize = 140`). -/
def cfg0 : Config := ⟨140⟩

/-- A landscape overlay of 800 × 600 used for concrete runs. -/
def state0 : OverlayState := initState 800 600

/-- A state in which touch 1 currently drives the joystick. -/
def stateJ : OverlayState :=
  { state0 with joystickTouchId := some 1, joyActive := true }

/-- A state in which touch 2 currently presses the jump button. -/
noncomputable def stateB : OverlayState :=
  { state0 with
      pressedButtons := {ActionType.jump}
      buttonTouches := Function.update (fun _ => none) 2 (some ActionType.jump) }

/-! Helper lemmas. -/

/-- Evaluation of a square root at a perfect square. -/
lemma sqrt_num {a b : ℝ} (hb : 0 ≤ b) (h : b * b = a) : Real.sqrt a = b := by
  rw [← h, Real.sqrt_mul_self hb]

/-- The code's nested `max`/`min` form of clamping agrees with the spec's
`clamp` whenever the interval is nonempty. -/
lemma max_min_eq_clamp (v lo hi : ℝ) (h : lo ≤ hi) :
    max lo (min hi v) = clamp v lo hi := by
  unfold clamp
  rcases le_total v lo with h1 | h1 <;> rcases le_total v hi with h2 | h2 <;>
    simp [min_def, max_def] <;> split_ifs <;> linarith

/-- The JavaScript remainder is nonnegative for a nonnegative dividend. -/
lemma jsMod_nonneg {a b : ℝ} (ha : 0 ≤ a) (hb : 0 < b) : 0 ≤ jsMod a b := by
  unfold jsMod jsTrunc
  rw [if_pos (div_nonneg ha hb.le)]
  have h1 : (⌊a / b⌋ : ℝ) ≤ a / b := Int.floor_le _
  have h2 : b * (⌊a / b⌋ : ℝ) ≤ b * (a / b) :=
    mul_le_mul_of_nonneg_left h1 hb.le
  have h3 : b * (a / b) = a := mul_div_cancel₀ a hb.ne'
  linarith

/-- The JavaScript remainder is below the (positive) divisor for a
nonnegative dividend. -/
lemma jsMod_lt {a b : ℝ} (ha : 0 ≤ a) (hb : 0 < b) : jsMod a b < b := by
  unfold jsMod jsTrunc
  rw [if_pos (div_nonneg ha hb.le)]
  have h1 : a / b < (⌊a / b⌋ : ℝ) + 1 := Int.lt_floor_add_one _
  have h2 : a < ((⌊a / b⌋ : ℝ) + 1) * b := (div_lt_iff hb).mp h1
  have h3 : b * (⌊a / b⌋ : ℝ) = (⌊a / b⌋ : ℝ) * b := mul_comm _ _
  linarith

/-- Degrees of `atan2` lie in `(-180, 180]`. -/
lemma atan2_deg_mem (y x : ℝ) :
    -180 < atan2 y x * 180 / Real.pi ∧ atan2 y x * 180 / Real.pi ≤ 180 := by
  have hπ := Real.pi_pos
  have h1 : -Real.pi < atan2 y x := Complex.neg_pi_lt_arg _
  have h2 : atan2 y x ≤ Real.pi := Complex.arg_le_pi _
  constructor
  · rw [lt_div_iff hπ]
    nlinarith
  · rw [div_le_iff hπ]
    nlinarith

/-- Unfolding of the joystick move computation, payload component. -/
lemma moveJoystick_snd (cfg : Config) (s : OverlayState) (x y : ℝ) :
    (moveJoystickWithTouch cfg s x y).2 =
      { x := max (-1) (min 1 ((x - (joystickCenter cfg s).1) / maxDistance cfg))
        y := max (-1) (min 1 ((y - (joystickCenter cfg s).2) / maxDistance cfg))
        angle := jsMod (atan2 (y - (joystickCenter cfg s).2)
          (x - (joystickCenter cfg s).1) * 180 / Real.pi + 360) 360
        distance := min (Real.sqrt
          ((x - (joystickCenter cfg s).1) * (x - (joystickCenter cfg s).1) +
            (y - (joystickCenter cfg s).2) * (y - (joystickCenter cfg s).2)) /
          maxDistance cfg) 1 } := rfl

open Classical in
/-- Unfolding of the joystick move computation, knob offset component. -/
lemma moveJoystick_fst (cfg : Config) (s : OverlayState) (x y : ℝ) :
    (moveJoystickWithTouch cfg s x y).1 =
      (if Real.sqrt ((x - (joystickCenter cfg s).1) *
            (x - (joystickCenter cfg s).1) +
            (y - (joystickCenter cfg s).2) * (y - (joystickCenter cfg s).2)) >
          maxDistance cfg then
        Real.cos (atan2 (y - (joystickCenter cfg s).2)
          (x - (joystickCenter cfg s).1)) * maxDistance cfg
      else x - (joystickCenter cfg s).1,
      if Real.sqrt ((x - (joystickCenter cfg s).1) *
            (x - (joystickCenter cfg s).1) +
            (y - (joystickCenter cfg s).2) * (y - (joystickCenter cfg s).2)) >
          maxDistance cfg then
        Real.sin (atan2 (y - (joystickCenter cfg s).2)
          (x - (joystickCenter cfg s).1)) * maxDistance cfg
      else y - (joystickCenter cfg s).2) := rfl

/-- An id has no binding exactly when it neither drives the joystick nor
appears in the button binding table. -/
lemma bindingOf_eq_none (s : OverlayState) (i : TouchId) :
    bindingOf s i = none ↔
      s.joystickTouchId ≠ some i ∧ s.buttonTouches i = none := by
  unfold bindingOf
  split_ifs with h
  · simp [h]
  · simp [h, Option.map_eq_none']

/-- Unfolding the batch fold one touch at a time, with explicit event
accumulator. -/
lemma runBatch_go (f : OverlayState → Touch → OverlayState × List OutEvent)
    (s : OverlayState) (ts : List Touch) (acc : List OutEvent) :
    ts.foldl (fun a t =>
        let r := f a.1 t
        (r.1, a.2 ++ r.2)) (s, acc) =
      ((runBatch f s ts).1, acc ++ (runBatch f s ts).2) := by
  induction ts generalizing s acc with
  | nil => simp [runBatch]
  | cons t ts ih =>
      have hs : runBatch f s (t :: ts) =
          ts.foldl (fun a t =>
            let r := f a.1 t
            (r.1, a.2 ++ r.2)) ((f s t).1, (f s t).2) := by
        unfold runBatch
        simp [List.foldl_cons]
      rw [List.foldl_cons, hs, ih, ih]
      simp

/-- Decomposition of a batch at its first touch. -/
lemma runBatch_cons (f : OverlayState → Touch → OverlayState × List OutEvent)
    (s : OverlayState) (t : Touch) (ts : List Touch) :
    runBatch f s (t :: ts) =
      ((runBatch f (f s t).1 ts).1,
        (f s t).2 ++ (runBatch f (f s t).1 ts).2) := by
  have h := runBatch_go f (f s t).1 ts (f s t).2
  unfold runBatch at h ⊢
  rw [List.foldl_cons]
  simpa using h

/-- The empty batch is a no-op. -/
lemma runBatch_nil (f : OverlayState → Touch → OverlayState × List OutEvent)
    (s : OverlayState) : runBatch f s [] = (s, []) := rfl

/-! Per-touch behavior of the three handlers. -/

/-- A begin touch that claims nothing leaves the state unchanged. -/
lemma processStartTouch_inert (cfg : Config) (s : OverlayState) (t : Touch)
    (hj : ¬(s.joystickTouchId = none ∧ hitTestJoystick cfg s t.pageX t.pageY))
    (hb : hitTestButtons s t.pageX t.pageY = none) :
    processStartTouch cfg s t = (s, []) := by
  unfold processStartTouch
  rw [if_neg hj, hb]

/-- A begin touch that does not claim the joystick and hits a button is
bound to that button. -/
lemma processStartTouch_button (cfg : Config) (s : OverlayState) (t : Touch)
    (a : ActionType)
    (hj : ¬(s.joystickTouchId = none ∧ hitTestJoystick cfg s t.pageX t.pageY))
    (hb : hitTestButtons s t.pageX t.pageY = some a) :
    processStartTouch cfg s t =
      ({ s with
          buttonTouches := Function.update s.buttonTouches t.identifier (some a)
          pressedButtons := insert a s.pressedButtons },
       [OutEvent.buttonPress a]) := by
  unfold processStartTouch
  rw [if_neg hj, hb]

/-- A begin touch on an unclaimed joystick within its hit circle claims
it, activates it, and immediately emits the initial joystick update. -/
lemma processStartTouch_joystick (cfg : Config) (s : OverlayState)
    (i : TouchId) (x y : ℝ) (h0 : s.joystickTouchId = none)
    (hh : hitTestJoystick cfg s x y) :
    processStartTouch cfg s ⟨i, x, y⟩ =
      ({ s with
          joystickTouchId := some i
          joyActive := true
          joyPos := (moveJoystickWithTouch cfg s x y).1 },
       [OutEvent.joystickMove (moveJoystickWithTouch cfg s x y).2]) := by
  unfold processStartTouch
  rw [if_pos ⟨h0, hh⟩]
  rfl

/-- Begin processing of one touch does not change the binding of any
other id. -/
lemma processStartTouch_bindingOf_other (cfg : Config) (s : OverlayState)
    (t : Touch) (i : TouchId) (hne : i ≠ t.identifier) :
    bindingOf (processStartTouch cfg s t).1 i = bindingOf s i := by
  unfold processStartTouch startJoystickWithTouch
  split_ifs with h
  · unfold bindingOf
    rw [if_neg (show ¬_ by simp; exact fun he => hne he.symm),
      if_neg (by simp [h.1])]
  · rcases hbt : hitTestButtons s t.pageX t.pageY with _ | a
    · rfl
    · unfold bindingOf
      by_cases hji : s.joystickTouchId = some i
      · rw [if_pos (by simpa using hji), if_pos hji]
      · rw [if_neg (by simpa using hji), if_neg hji]
        simp [Function.update_noteq hne]

/-- Begin processing of a fresh touch preserves touch exclusivity. -/
lemma processStartTouch_excl (cfg : Config) (s : OverlayState) (t : Touch)
    (hE : TouchExclusive s) (hf : bindingOf s t.identifier = none) :
    TouchExclusive (processStartTouch cfg s t).1 := by
  obtain ⟨hfj, hfb⟩ := (bindingOf_eq_none s t.identifier).mp hf
  unfold processStartTouch startJoystickWithTouch
  split_ifs with h
  · intro j hj
    simp only [] at hj
    have : t.identifier = j := by simpa using hj
    simpa [← this] using hfb
  · rcases hbt : hitTestButtons s t.pageX t.pageY with _ | a
    · exact hE
    · intro j hj
      simp only [] at hj ⊢
      by_cases hji : j = t.identifier
      · exact absurd (hji ▸ hj) hfj
      · rw [Function.update_noteq hji]
        exact hE j hj

/-- Move processing changes only the knob offset; all bindings, the
active flag and the pressed set are untouched. -/
lemma processMoveTouch_fields (cfg : Config) (s : OverlayState) (t : Touch) :
    (processMoveTouch cfg s t).1.joystickTouchId = s.joystickTouchId ∧
      (processMoveTouch cfg s t).1.buttonTouches = s.buttonTouches ∧
      (processMoveTouch cfg s t).1.joyActive = s.joyActive ∧
      (processMoveTouch cfg s t).1.pressedButtons = s.pressedButtons := by
  unfold processMoveTouch
  split_ifs <;> simp

/-- Move processing does not change any binding. -/
lemma processMoveTouch_bindingOf (cfg : Config) (s : OverlayState)
    (t : Touch) (i : TouchId) :
    bindingOf (processMoveTouch cfg s t).1 i = bindingOf s i := by
  obtain ⟨h1, h2, -, -⟩ := processMoveTouch_fields cfg s t
  unfold bindingOf
  rw [h1, h2]

/-- A move for an id with no binding is a strict no-op. -/
lemma processMoveTouch_unbound (cfg : Config) (s : OverlayState) (t : Touch)
    (h : bindingOf s t.identifier = none) :
    processMoveTouch cfg s t = (s, []) := by
  obtain ⟨h1, -⟩ := (bindingOf_eq_none s t.identifier).mp h
  unfold processMoveTouch
  rw [if_neg (fun he => h1 he)]

/-- An end for an id with no binding is a strict no-op. -/
lemma processEndTouch_unbound (s : OverlayState) (t : Touch)
    (h : bindingOf s t.identifier = none) :
    processEndTouch s t = (s, []) := by
  obtain ⟨h1, h2⟩ := (bindingOf_eq_none s t.identifier).mp h
  unfold processEndTouch
  rw [if_neg (fun he => h1 he)]
  simp only [h2]

/-- Ending the touch that drives the joystick, in a state where the
active flag is in sync and the touch has no button entry, unbinds it,
deactivates the joystick, recenters the knob, and emits the release. -/
lemma processEndTouch_joystick (s : OverlayState) (t : Touch)
    (hJ : s.joystickTouchId = some t.identifier) (hA : s.joyActive = true)
    (hB : s.buttonTouches t.identifier = none) :
    processEndTouch s t =
      ({ s with
          joystickTouchId := none
          joyActive := false
          joyPos := (0, 0) },
       [OutEvent.joystickRelease]) := by
  unfold processEndTouch releaseJoystick
  rw [if_pos hJ, if_pos (by rw [hA])]
  simp only [hB]

/-- Ending a touch bound to a button removes its entry, erases that
button from the pressed set, and emits the button release. -/
lemma processEndTouch_button (s : OverlayState) (t : Touch) (a : ActionType)
    (hJ : ¬s.joystickTouchId = some t.identifier)
    (hB : s.buttonTouches t.identifier = some a) :
    processEndTouch s t =
      ({ s with
          buttonTouches := Function.update s.buttonTouches t.identifier none
          pressedButtons := s.pressedButtons.erase a },
       [OutEvent.buttonRelease a]) := by
  unfold processEndTouch
  rw [if_neg hJ]
  simp only [hB]
  rfl

/-- End processing never rebinds an id: every binding is either kept
unchanged or removed. -/
lemma processEndTouch_bindingOf (s : OverlayState) (t : Touch) (i : TouchId) :
    bindingOf (processEndTouch s t).1 i = bindingOf s i ∨
      bindingOf (processEndTouch s t).1 i = none := by
  unfold processEndTouch releaseJoystick
  by_cases hJ : s.joystickTouchId = some t.identifier
  · by_cases hA : s.joyActive = true
    · rw [if_pos hJ, if_pos (by rw [hA])]
      rcases hbt : s.buttonTouches t.identifier with _ | btn
      · simp only [hbt]
        by_cases hit : i = t.identifier
        · right
          unfold bindingOf
          rw [if_neg (by simp)]
          simp [hit, hbt]
        · left
          unfold bindingOf
          rw [if_neg (by simp),
            if_neg (by rw [hJ]; simp; exact fun he => hit he.symm)]
      · simp only [hbt]
        by_cases hit : i = t.identifier
        · subst hit
          right
          unfold bindingOf
          rw [if_neg (by simp)]
          simp
        · left
          unfold bindingOf
          rw [if_neg (by simp),
            if_neg (by rw [hJ]; simp; exact fun he => hit he.symm)]
          simp [Function.update_noteq hit]
    · rw [if_pos hJ, if_neg hA]
      rcases hbt : s.buttonTouches t.identifier with _ | btn
      · simp [hbt]
      · simp only [hbt]
        by_cases hit : i = t.identifier
        · subst hit
          left
          unfold bindingOf
          rw [if_pos hJ, if_pos hJ]
        · by_cases hji : s.joystickTouchId = some i
          · left
            unfold bindingOf
            rw [if_pos hji, if_pos hji]
          · left
            unfold bindingOf
            rw [if_neg hji, if_neg hji]
            simp [Function.update_noteq hit]
  · rw [if_neg hJ]
    rcases hbt : s.buttonTouches t.identifier with _ | btn
    · simp [hbt]
    · simp only [hbt]
      by_cases hit : i = t.identifier
      · subst hit
        right
        unfold bindingOf
        rw [if_neg (by simpa using hJ)]
        simp
      · by_cases hji : s.joystickTouchId = some i
        · left
          unfold bindingOf
          rw [if_pos hji, if_pos hji]
        · left
          unfold bindingOf
          rw [if_neg hji, if_neg hji]
          simp [Function.update_noteq hit]

/-- End processing preserves touch exclusivity. -/
lemma processEndTouch_excl (s : OverlayState) (t : Touch)
    (hE : TouchExclusive s) : TouchExclusive (processEndTouch s t).1 := by
  unfold processEndTouch releaseJoystick
  by_cases hJ : s.joystickTouchId = some t.identifier
  · by_cases hA : s.joyActive = true
    · rw [if_pos hJ, if_pos (by rw [hA])]
      rcases hbt : s.buttonTouches t.identifier with _ | btn <;>
        simp only [hbt] <;> intro j hj <;> simp at hj
    · rw [if_pos hJ, if_neg hA]
      rcases hbt : s.buttonTouches t.identifier with _ | btn
      · simp only [hbt]
        exact hE
      · simp only [hbt]
        intro j hj
        simp only [] at hj
        by_cases hit : j = t.identifier
        · subst hit
          simp
        · simp [Function.update_noteq hit, hE j hj]
  · rw [if_neg hJ]
    rcases hbt : s.buttonTouches t.identifier with _ | btn
    · simp only [hbt]
      exact hE
    · simp only [hbt]
      intro j hj
      simp only [] at hj
      by_cases hit : j = t.identifier
      · subst hit
        simp
      · simp [Function.update_noteq hit, hE j hj]

/-- The layout handler changes at most the stored overlay size. -/
lemma handleLayout_fields (s : OverlayState) (w h : ℝ) :
    (handleLayout s w h).joystickTouchId = s.joystickTouchId ∧
      (handleLayout s w h).buttonTouches = s.buttonTouches ∧
      (handleLayout s w h).joyActive = s.joyActive ∧
      (handleLayout s w h).joyPos = s.joyPos ∧
      (handleLayout s w h).pressedButtons = s.pressedButtons := by
  unfold handleLayout
  split_ifs <;> simp

/-! Batch-level lemmas. -/

/-- A begin batch does not change the binding of an id outside it. -/
lemma start_batch_bindingOf (cfg : Config) (ts : List Touch) :
    ∀ (s : OverlayState) (i : TouchId), (∀ t ∈ ts, t.identifier ≠ i) →
      bindingOf (runBatch (processStartTouch cfg) s ts).1 i = bindingOf s i := by
  induction ts with
  | nil => intro s i _; rfl
  | cons t ts ih =>
      intro s i h
      rw [runBatch_cons]
      exact (ih _ i fun u hu => h u (List.mem_cons_of_mem _ hu)).trans
        (processStartTouch_bindingOf_other cfg s t i
          fun he => h t (List.mem_cons_self _ _) he.symm)

/-- A well-formed begin batch preserves touch exclusivity. -/
lemma start_batch_excl (cfg : Config) (ts : List Touch) :
    ∀ s : OverlayState, TouchExclusive s → FreshBatch s ts →
      TouchExclusive (runBatch (processStartTouch cfg) s ts).1 := by
  induction ts with
  | nil => intro s hE _; exact hE
  | cons t ts ih =>
      intro s hE hF
      obtain ⟨hp, hf⟩ := hF
      rw [List.pairwise_cons] at hp
      rw [runBatch_cons]
      refine ih _ (processStartTouch_excl cfg s t hE
        (hf t (List.mem_cons_self _ _))) ⟨hp.2, fun u hu => ?_⟩
      rw [processStartTouch_bindingOf_other cfg s t u.identifier
        fun he => hp.1 u hu he.symm]
      exact hf u (List.mem_cons_of_mem _ hu)

/-- A move batch changes none of the binding or button state fields. -/
lemma move_batch_fields (cfg : Config) (ts : List Touch) :
    ∀ s : OverlayState,
      (runBatch (processMoveTouch cfg) s ts).1.joystickTouchId =
          s.joystickTouchId ∧
        (runBatch (processMoveTouch cfg) s ts).1.buttonTouches =
          s.buttonTouches ∧
        (runBatch (processMoveTouch cfg) s ts).1.joyActive = s.joyActive ∧
        (runBatch (processMoveTouch cfg) s ts).1.pressedButtons =
          s.pressedButtons := by
  induction ts with
  | nil => intro s; exact ⟨rfl, rfl, rfl, rfl⟩
  | cons t ts ih =>
      intro s
      rw [runBatch_cons]
      obtain ⟨h1, h2, h3, h4⟩ := ih (processMoveTouch cfg s t).1
      obtain ⟨g1, g2, g3, g4⟩ := processMoveTouch_fields cfg s t
      exact ⟨h1.trans g1, h2.trans g2, h3.trans g3, h4.trans g4⟩

/-- A move batch does not change any binding. -/
lemma move_batch_bindingOf (cfg : Config) (ts : List Touch)
    (s : OverlayState) (i : TouchId) :
    bindingOf (runBatch (processMoveTouch cfg) s ts).1 i = bindingOf s i := by
  obtain ⟨h1, h2, -, -⟩ := move_batch_fields cfg ts s
  unfold bindingOf
  rw [h1, h2]

/-- An end batch never rebinds an id: its binding is kept or removed. -/
lemma end_batch_bindingOf (ts : List Touch) :
    ∀ (s : OverlayState) (i : TouchId),
      bindingOf (runBatch processEndTouch s ts).1 i = bindingOf s i ∨
        bindingOf (runBatch processEndTouch s ts).1 i = none := by
  induction ts with
  | nil => intro s i; left; rfl
  | cons t ts ih =>
      intro s i
      rw [runBatch_cons]
      rcases ih (processEndTouch s t).1 i with h | h
      · rcases processEndTouch_bindingOf s t i with g | g
        · left; exact h.trans g
        · right; exact h.trans g
      · right; exact h

/-- An end batch preserves touch exclusivity. -/
lemma end_batch_excl (ts : List Touch) :
    ∀ s : OverlayState, TouchExclusive s →
      TouchExclusive (runBatch processEndTouch s ts).1 := by
  induction ts with
  | nil => intro s hE; exact hE
  | cons t ts ih =>
      intro s hE
      rw [runBatch_cons]
      exact ih _ (processEndTouch_excl s t hE)

/-- A move batch all of whose ids are unbound is a strict no-op. -/
lemma move_batch_noop (cfg : Config) (ts : List Touch) :
    ∀ s : OverlayState, (∀ t ∈ ts, bindingOf s t.identifier = none) →
      runBatch (processMoveTouch cfg) s ts = (s, []) := by
  induction ts with
  | nil => intro s _; rfl
  | cons t ts ih =>
      intro s h
      rw [runBatch_cons,
        processMoveTouch_unbound cfg s t (h t (List.mem_cons_self _ _)),
        ih s fun u hu => h u (List.mem_cons_of_mem _ hu)]
      simp

/-- An end batch all of whose ids are unbound is a strict no-op. -/
lemma end_batch_noop (ts : List Touch) :
    ∀ s : OverlayState, (∀ t ∈ ts, bindingOf s t.identifier = none) →
      runBatch processEndTouch s ts = (s, []) := by
  induction ts with
  | nil => intro s _; rfl
  | cons t ts ih =>
      intro s h
      rw [runBatch_cons,
        processEndTouch_unbound s t (h t (List.mem_cons_self _ _)),
        ih s fun u hu => h u (List.mem_cons_of_mem _ hu)]
      simp

/-! Step- and run-level lemmas. -/

/-- One well-formed event batch preserves touch exclusivity. -/
lemma step_excl (cfg : Config) (s : OverlayState) (e : InEvent)
    (hE : TouchExclusive s) (hW : WFEvent s e) :
    TouchExclusive (step cfg s e).1 := by
  cases e with
  | start ts => exact start_batch_excl cfg ts s hE hW
  | move ts =>
      intro i hi
      obtain ⟨h1, h2, -, -⟩ := move_batch_fields cfg ts s
      rw [show (step cfg s (InEvent.move ts)).1 =
        (runBatch (processMoveTouch cfg) s ts).1 from rfl, h1] at hi
      rw [show (step cfg s (InEvent.move ts)).1 =
        (runBatch (processMoveTouch cfg) s ts).1 from rfl, h2]
      exact hE i hi
  | touchEnd ts => exact end_batch_excl ts s hE
  | touchCancel ts => exact end_batch_excl ts s hE
  | layout w h =>
      intro i hi
      obtain ⟨h1, h2, -, -, -⟩ := handleLayout_fields s w h
      rw [show (step cfg s (InEvent.layout w h)).1 = handleLayout s w h
        from rfl, h1] at hi
      rw [show (step cfg s (InEvent.layout w h)).1 = handleLayout s w h
        from rfl, h2]
      exact hE i hi

/-- A well-formed trace preserves touch exclusivity. -/
lemma run_excl (cfg : Config) (evs : List InEvent) :
    ∀ s : OverlayState, TouchExclusive s → WFRun cfg s evs →
      TouchExclusive (run cfg s evs) := by
  induction evs with
  | nil => intro s hE _; exact hE
  | cons e evs ih =>
      intro s hE hW
      exact ih _ (step_excl cfg s e hE hW.1) hW.2

/-- One event batch that is not a begin for id `i` keeps or removes the
binding of `i`, never changing it to a different control. -/
lemma step_bindingOf_cases (cfg : Config) (s : OverlayState) (e : InEvent)
    (i : TouchId) (he : NoStartOf i e) :
    bindingOf (step cfg s e).1 i = bindingOf s i ∨
      bindingOf (step cfg s e).1 i = none := by
  cases e with
  | start ts => exact Or.inl (start_batch_bindingOf cfg ts s i he)
  | move ts => exact Or.inl (move_batch_bindingOf cfg ts s i)
  | touchEnd ts => exact end_batch_bindingOf ts s i
  | touchCancel ts => exact end_batch_bindingOf ts s i
  | layout w h =>
      left
      obtain ⟨h1, h2, -, -, -⟩ := handleLayout_fields s w h
      show bindingOf (handleLayout s w h) i = bindingOf s i
      unfold bindingOf
      rw [h1, h2]

/-- Over a trace with no begin batch for id `i`, the binding of `i` stays
in the set consisting of its original value and `none`. -/
lemma run_bindingOf_subset (cfg : Config) (i : TouchId) (v : Option Control)
    (evs : List InEvent) :
    ∀ s : OverlayState, (∀ e ∈ evs, NoStartOf i e) →
      (bindingOf s i = v ∨ bindingOf s i = none) →
      (bindingOf (run cfg s evs) i = v ∨
        bindingOf (run cfg s evs) i = none) := by
  induction evs with
  | nil => intro s _ h; exact h
  | cons e evs ih =>
      intro s he h
      refine ih _ (fun u hu => he u (List.mem_cons_of_mem _ hu)) ?_
      rcases step_bindingOf_cases cfg s e i
        (he e (List.mem_cons_self _ _)) with g | g
      · rw [g]; exact h
      · right; exact g

/-! Claim theorems. -/

/-- C2: on a begin touch, if the joystick has no bound touch and the
position lies within the joystick hit circle, the router binds the touch
to the joystick, sets active, and immediately emits the initial joystick
update computed from the touch position in the same invocation. -/
theorem C2_joystick_binding_on_begin (cfg : Config) (s : OverlayState)
    (i : TouchId) (x y : ℝ) (h0 : s.joystickTouchId = none)
    (hh : hitTestJoystick cfg s x y) :
    processStartTouch cfg s ⟨i, x, y⟩ =
      ({ s with
          joystickTouchId := some i
          joyActive := true
          joyPos := (moveJoystickWithTouch cfg s x y).1 },
       [OutEvent.joystickMove (moveJoystickWithTouch cfg s x y).2]) :=
  processStartTouch_joystick cfg s i x y h0 hh

/-- Witness for C2 at the default configuration: a begin touch at the
joystick center of an 800 × 600 overlay claims the joystick. -/
theorem C2_joystick_binding_on_begin_witness :
    processStartTouch cfg0 state0 ⟨3, 100, 490⟩ =
      ({ state0 with
          joystickTouchId := some 3
          joyActive := true
          joyPos := (moveJoystickWithTouch cfg0 state0 100 490).1 },
       [OutEvent.joystickMove (moveJoystickWithTouch cfg0 state0 100 490).2]) :=
  C2_joystick_binding_on_begin cfg0 state0 3 100 490 rfl
    (by norm_num [hitTestJoystick, joystickCenter, state0, initState, cfg0,
      joystickLeft, joystickBottom, Real.sqrt_zero])

/-- C9: a layout event with zero width or height is ignored, and one with
nonzero dimensions updates only the stored overlay size, leaving the
binding table, the joystick state and every button state unchanged. -/
theorem C9_layout_frame_condition (cfg : Config) (s : OverlayState)
    (w h : ℝ) :
    ((w = 0 ∨ h = 0) → step cfg s (InEvent.layout w h) = (s, [])) ∧
    (w ≠ 0 → h ≠ 0 → step cfg s (InEvent.layout w h) =
      ({ s with width := w, height := h }, [])) ∧
    (step cfg s (InEvent.layout w h)).1.joystickTouchId =
      s.joystickTouchId ∧
    (step cfg s (InEvent.layout w h)).1.buttonTouches = s.buttonTouches ∧
    (step cfg s (InEvent.layout w h)).1.joyActive = s.joyActive ∧
    (step cfg s (InEvent.layout w h)).1.joyPos = s.joyPos ∧
    (step cfg s (InEvent.layout w h)).1.pressedButtons = s.pressedButtons ∧
    (step cfg s (InEvent.layout w h)).2 = [] := by
  obtain ⟨f1, f2, f3, f4, f5⟩ := handleLayout_fields s w h
  refine ⟨?_, ?_, f1, f2, f3, f4, f5, rfl⟩
  · rintro (rfl | rfl)
    · show (handleLayout s 0 h, ([] : List OutEvent)) = (s, [])
      unfold handleLayout
      rw [if_neg fun hc => hc.1 rfl]
    · show (handleLayout s w 0, ([] : List OutEvent)) = (s, [])
      unfold handleLayout
      rw [if_neg fun hc => hc.2 rfl]
  · intro hw hh
    show (handleLayout s w h, ([] : List OutEvent)) = _
    unfold handleLayout
    rw [if_pos ⟨hw, hh⟩]

/-- Witness for C9: a zero-height layout on a bound state is a strict
no-op, and a 1024 × 768 layout updates only the stored size. -/
theorem C9_layout_frame_condition_witness :
    step cfg0 stateJ (InEvent.layout 500 0) = (stateJ, []) ∧
      step cfg0 stateJ (InEvent.layout 1024 768) =
        ({ stateJ with width := 1024, height := 768 }, []) :=
  ⟨(C9_layout_frame_condition cfg0 stateJ 500 0).1 (Or.inr rfl),
   (C9_layout_frame_condition cfg0 stateJ 1024 768).2.1
     (by norm_num) (by norm_num)⟩

/-- C8: a move, end, or cancel batch all of whose touch ids have no
binding changes no state and emits no event. -/
theorem C8_unbound_ids_are_noops (cfg : Config) (s : OverlayState)
    (ts : List Touch) (h : ∀ t ∈ ts, bindingOf s t.identifier = none) :
    step cfg s (InEvent.move ts) = (s, []) ∧
    step cfg s (InEvent.touchEnd ts) = (s, []) ∧
    step cfg s (InEvent.touchCancel ts) = (s, []) :=
  ⟨move_batch_noop cfg ts s h, end_batch_noop ts s h, end_batch_noop ts s h⟩

/-- Witness for C8: move, end and cancel events for the unbound id 7 in a
state where only id 2 presses a button are strict no-ops. -/
theorem C8_unbound_ids_are_noops_witness :
    step cfg0 stateB (InEvent.move [⟨7, 10, 10⟩]) = (stateB, []) ∧
    step cfg0 stateB (InEvent.touchEnd [⟨7, 10, 10⟩]) = (stateB, []) ∧
    step cfg0 stateB (InEvent.touchCancel [⟨7, 10, 10⟩]) = (stateB, []) :=
  C8_unbound_ids_are_noops cfg0 stateB [⟨7, 10, 10⟩] (by
    intro t ht
    rcases List.mem_singleton.mp ht with rfl
    simp [bindingOf, stateB, state0, initState, Function.update_apply])

/-- C7: once a touch id is bound to a control, then over any event trace
that contains no begin batch for that id, the id is never rebound to a
different control: its binding can only stay the same or disappear. -/
theorem C7_no_reclassification (cfg : Config) (s : OverlayState)
    (i : TouchId) (c : Control) (evs : List InEvent)
    (hev : ∀ e ∈ evs, NoStartOf i e) (hb : bindingOf s i = some c)
    (c' : Control) (hc : bindingOf (run cfg s evs) i = some c') : c' = c := by
  rcases run_bindingOf_subset cfg i (some c) evs s hev (Or.inl hb) with g | g
  · rw [hc] at g
    exact Option.some.inj g
  · rw [hc] at g
    cases g

/-- Witness for C7: after a move of the joystick touch and the end of an
unrelated id, touch 1 is still bound to the joystick. -/
theorem C7_no_reclassification_witness :
    bindingOf (run cfg0 stateJ
        [InEvent.move [⟨1, 120, 500⟩], InEvent.touchEnd [⟨5, 300, 300⟩]]) 1 =
      some Control.joystick ∧ Control.joystick = Control.joystick := by
  have h5 : bindingOf (runBatch (processMoveTouch cfg0) stateJ
      [⟨1, 120, 500⟩]).1 5 = none := by
    rw [move_batch_bindingOf]
    simp [bindingOf, stateJ, state0, initState]
  have hend : runBatch processEndTouch (runBatch (processMoveTouch cfg0)
      stateJ [⟨1, 120, 500⟩]).1 [⟨5, 300, 300⟩] =
      ((runBatch (processMoveTouch cfg0) stateJ [⟨1, 120, 500⟩]).1, []) :=
    end_batch_noop _ _ (by
      intro t ht
      rcases List.mem_singleton.mp ht with rfl
      exact h5)
  have hrun : bindingOf (run cfg0 stateJ
      [InEvent.move [⟨1, 120, 500⟩], InEvent.touchEnd [⟨5, 300, 300⟩]]) 1 =
      some Control.joystick := by
    show bindingOf (runBatch processEndTouch (runBatch (processMoveTouch cfg0)
      stateJ [⟨1, 120, 500⟩]).1 [⟨5, 300, 300⟩]).1 1 = some Control.joystick
    rw [hend, move_batch_bindingOf]
    simp [bindingOf, stateJ, state0, initState]
  refine ⟨hrun, C7_no_reclassification cfg0 stateJ 1 Control.joystick _
    ?_ ?_ Control.joystick hrun⟩
  · intro e he
    rcases List.mem_cons.mp he with rfl | he2
    · trivial
    · rcases List.mem_singleton.mp he2 with rfl
      trivial
  · simp [bindingOf, stateJ, state0, initState]

/-- C6: ending or cancelling a bound touch unbinds it; if it drove the
joystick this deactivates it, recenters the knob, and emits the release;
if it pressed a button this clears that button and emits its release; the
cancel handler is the end handler. The `ActiveSync` and `TouchExclusive`
hypotheses are the state invariants maintained by the router. -/
theorem C6_release_on_end_or_cancel (cfg : Config) (s : OverlayState)
    (t : Touch) (c : Control) (hsync : ActiveSync s)
    (hexcl : TouchExclusive s) (hb : bindingOf s t.identifier = some c) :
    bindingOf (processEndTouch s t).1 t.identifier = none ∧
    (c = Control.joystick →
      processEndTouch s t =
        ({ s with
            joystickTouchId := none
            joyActive := false
            joyPos := (0, 0) },
         [OutEvent.joystickRelease])) ∧
    (∀ a, c = Control.button a →
      processEndTouch s t =
        ({ s with
            buttonTouches := Function.update s.buttonTouches t.identifier none
            pressedButtons := s.pressedButtons.erase a },
         [OutEvent.buttonRelease a]) ∧
      a ∉ (processEndTouch s t).1.pressedButtons) ∧
    (∀ ts, step cfg s (InEvent.touchCancel ts) =
      step cfg s (InEvent.touchEnd ts)) := by
  unfold bindingOf at hb
  split_ifs at hb with hJ
  · have hc : c = Control.joystick := (Option.some.inj hb).symm
    have hA := hsync _ hJ
    have hbt := hexcl _ hJ
    have heq := processEndTouch_joystick s t hJ hA hbt
    refine ⟨?_, fun _ => heq, fun a ha => absurd (hc ▸ ha) (by simp), fun _ => rfl⟩
    rw [heq]
    simp [bindingOf, hbt]
  · rcases Option.map_eq_some'.mp hb with ⟨a, ha, hfa⟩
    have heq := processEndTouch_button s t a hJ ha
    refine ⟨?_, ?_, ?_, fun _ => rfl⟩
    · rw [heq]
      simp [bindingOf, hJ]
    · intro hc
      rw [← hfa] at hc
      cases hc
    · intro a' ha'
      have : a = a' := by
        rw [← hfa] at ha'
        exact Control.button.inj ha'
      subst this
      refine ⟨heq, ?_⟩
      rw [heq]
      exact Finset.not_mem_erase a s.pressedButtons

/-- Witness for C6: releasing the joystick touch 1 in `stateJ` and the
jump-button touch 2 in `stateB`. -/
theorem C6_release_on_end_or_cancel_witness :
    processEndTouch stateJ ⟨1, 50, 50⟩ =
      ({ stateJ with
          joystickTouchId := none
          joyActive := false
          joyPos := (0, 0) },
       [OutEvent.joystickRelease]) ∧
    processEndTouch stateB ⟨2, 640, 430⟩ =
      ({ stateB with
          buttonTouches := Function.update stateB.buttonTouches 2 none
          pressedButtons := stateB.pressedButtons.erase ActionType.jump },
       [OutEvent.buttonRelease ActionType.jump]) ∧
    ActionType.jump ∉ (processEndTouch stateB ⟨2, 640, 430⟩).1.pressedButtons :=
  ⟨(C6_release_on_end_or_cancel cfg0 stateJ ⟨1, 50, 50⟩ Control.joystick
      (by intro j hj; rfl)
      (by intro j hj; rfl)
      (by simp [bindingOf, stateJ, state0, initState])).2.1 rfl,
   ((C6_release_on_end_or_cancel cfg0 stateB ⟨2, 640, 430⟩
      (Control.button ActionType.jump)
      (by intro j hj; simp [stateB, state0, initState] at hj)
      (by intro j hj; simp [stateB, state0, initState] at hj)
      (by simp [bindingOf, stateB, state0, initState,
        Function.update_apply])).2.2.1 ActionType.jump rfl).1,
   ((C6_release_on_end_or_cancel cfg0 stateB ⟨2, 640, 430⟩
      (Control.button ActionType.jump)
      (by intro j hj; simp [stateB, state0, initState] at hj)
      (by intro j hj; simp [stateB, state0, initState] at hj)
      (by simp [bindingOf, stateB, state0, initState,
        Function.update_apply])).2.2.1 ActionType.jump rfl).2⟩

/-- C1 (amended): after every batch of a well-formed trace, each touch id
is bound to at most one control and at most one touch is bound to the
joystick; per-button exclusivity does not hold (see the counterexample). -/
theorem C1_binding_exclusivity (cfg : Config) (w h : ℝ)
    (evs : List InEvent) (hwf : WFRun cfg (initState w h) evs) :
    TouchExclusive (run cfg (initState w h) evs) ∧
      JoystickUnique (run cfg (initState w h) evs) :=
  ⟨run_excl cfg evs _ (fun i hi => by simp [initState] at hi) hwf,
   fun i j hi hj => by
    rw [hi] at hj
    exact Option.some.inj hj⟩

/-- Witness for C1: the invariant after a well-formed one-batch trace
that binds touch 1 to the joystick. -/
theorem C1_binding_exclusivity_witness :
    TouchExclusive (run cfg0 (initState 800 600)
        [InEvent.start [⟨1, 100, 490⟩]]) ∧
      JoystickUnique (run cfg0 (initState 800 600)
        [InEvent.start [⟨1, 100, 490⟩]]) :=
  C1_binding_exclusivity cfg0 800 600 [InEvent.start [⟨1, 100, 490⟩]]
    ⟨⟨by simp, by
      intro t ht
      rcases List.mem_singleton.mp ht with rfl
      simp [bindingOf, initState]⟩, trivial⟩

/-- Evaluation of the JavaScript remainder at `360 % 360`. -/
lemma jsMod_360 : jsMod 360 360 = 0 := by
  unfold jsMod jsTrunc
  rw [if_pos (by norm_num : (0:ℝ) ≤ 360 / 360),
    show ((360:ℝ) / 360) = 1 by norm_num, Int.floor_one]
  norm_num

/-- A move to the exact joystick center produces a centered knob and the
all-zero payload (in particular `atan2 (0, 0) = 0`). -/
lemma moveJoystick_center (cfg : Config) (s : OverlayState)
    (hm : 0 ≤ maxDistance cfg) :
    moveJoystickWithTouch cfg s (joystickCenter cfg s).1
        (joystickCenter cfg s).2 =
      ((0, 0), ⟨0, 0, 0, 0⟩) := by
  have hz : atan2 0 0 = 0 := by
    unfold atan2
    rw [show (⟨0, 0⟩ : ℂ) = 0 from Complex.ext (by simp) (by simp)]
    exact Complex.arg_zero
  simp only [moveJoystickWithTouch, sub_self, mul_zero, add_zero,
    Real.sqrt_zero, zero_div, hz]
  rw [if_neg (not_lt.mpr hm), if_neg (not_lt.mpr hm)]
  norm_num [jsMod_360, max_def, min_def]

/-- C3: every move of the joystick-bound touch emits exactly one
joystick update whose fields are the componentwise clamp of the scaled
offset, the angle in degrees folded into `[0, 360)`, and the capped
normalized distance; all emitted fields lie in their documented ranges. -/
theorem C3_joystick_move_output (cfg : Config) (s : OverlayState)
    (i : TouchId) (x y dx dy : ℝ) (hb : s.joystickTouchId = some i)
    (hm : 0 < maxDistance cfg)
    (hdx : dx = x - (joystickCenter cfg s).1)
    (hdy : dy = y - (joystickCenter cfg s).2) :
    ∃ d : JoystickData,
      processMoveTouch cfg s ⟨i, x, y⟩ =
        ({ s with joyPos := (moveJoystickWithTouch cfg s x y).1 },
         [OutEvent.joystickMove d]) ∧
      d.x = clamp (dx / maxDistance cfg) (-1) 1 ∧
      d.y = clamp (dy / maxDistance cfg) (-1) 1 ∧
      d.angle = jsMod (atan2 dy dx * 180 / Real.pi + 360) 360 ∧
      d.distance = min (Real.sqrt (dx * dx + dy * dy) / maxDistance cfg) 1 ∧
      -1 ≤ d.x ∧ d.x ≤ 1 ∧ -1 ≤ d.y ∧ d.y ≤ 1 ∧
      0 ≤ d.angle ∧ d.angle < 360 ∧ 0 ≤ d.distance ∧ d.distance ≤ 1 := by
  subst hdx hdy
  have hx : (moveJoystickWithTouch cfg s x y).2.x =
      max (-1) (min 1 ((x - (joystickCenter cfg s).1) / maxDistance cfg)) :=
    rfl
  have hy : (moveJoystickWithTouch cfg s x y).2.y =
      max (-1) (min 1 ((y - (joystickCenter cfg s).2) / maxDistance cfg)) :=
    rfl
  have hang : (moveJoystickWithTouch cfg s x y).2.angle =
      jsMod (atan2 (y - (joystickCenter cfg s).2)
        (x - (joystickCenter cfg s).1) * 180 / Real.pi + 360) 360 := rfl
  have hdist : (moveJoystickWithTouch cfg s x y).2.distance =
      min (Real.sqrt ((x - (joystickCenter cfg s).1) *
        (x - (joystickCenter cfg s).1) +
        (y - (joystickCenter cfg s).2) * (y - (joystickCenter cfg s).2)) /
        maxDistance cfg) 1 := rfl
  have hdeg := atan2_deg_mem (y - (joystickCenter cfg s).2)
    (x - (joystickCenter cfg s).1)
  refine ⟨(moveJoystickWithTouch cfg s x y).2, ?_, ?_, ?_, hang, hdist,
    ?_, ?_, ?_, ?_, ?_, ?_, ?_, ?_⟩
  · unfold processMoveTouch
    rw [if_pos (show s.joystickTouchId = some (Touch.mk i x y).identifier
      from hb)]
  · rw [hx, max_min_eq_clamp _ _ _ (by norm_num)]
  · rw [hy, max_min_eq_clamp _ _ _ (by norm_num)]
  · rw [hx]
    exact le_max_left _ _
  · rw [hx]
    exact max_le (by norm_num) (min_le_left _ _)
  · rw [hy]
    exact le_max_left _ _
  · rw [hy]
    exact max_le (by norm_num) (min_le_left _ _)
  · rw [hang]
    exact jsMod_nonneg (by linarith [hdeg.1]) (by norm_num)
  · rw [hang]
    exact jsMod_lt (by linarith [hdeg.1]) (by norm_num)
  · rw [hdist]
    exact le_min (div_nonneg (Real.sqrt_nonneg _) hm.le) zero_le_one
  · rw [hdist]
    exact min_le_right _ _

/-- Witness for C3: a move of the bound touch 1 to offset `(50, 40)` from
the joystick center of the default layout. -/
theorem C3_joystick_move_output_witness :
    ∃ d : JoystickData,
      processMoveTouch cfg0 stateJ ⟨1, 150, 530⟩ =
        ({ stateJ with joyPos := (moveJoystickWithTouch cfg0 stateJ 150 530).1 },
         [OutEvent.joystickMove d]) ∧
      d.x = clamp (50 / maxDistance cfg0) (-1) 1 ∧
      d.y = clamp (40 / maxDistance cfg0) (-1) 1 ∧
      d.angle = jsMod (atan2 40 50 * 180 / Real.pi + 360) 360 ∧
      d.distance = min (Real.sqrt (50 * 50 + 40 * 40) / maxDistance cfg0) 1 ∧
      -1 ≤ d.x ∧ d.x ≤ 1 ∧ -1 ≤ d.y ∧ d.y ≤ 1 ∧
      0 ≤ d.angle ∧ d.angle < 360 ∧ 0 ≤ d.distance ∧ d.distance ≤ 1 :=
  C3_joystick_move_output cfg0 stateJ 1 150 530 50 40 rfl
    (by norm_num [maxDistance, cfg0])
    (by norm_num [joystickCenter, stateJ, state0, initState, cfg0,
      joystickLeft, joystickBottom])
    (by norm_num [joystickCenter, stateJ, state0, initState, cfg0,
      joystickLeft, joystickBottom])

/-- C10: a begin touch exactly at the joystick center, while the joystick
is unbound, immediately emits the all-zero update (the angle at zero
offset is 0 because `atan2 (0, 0) = 0`). -/
theorem C10_center_touch_zero_update (cfg : Config) (s : OverlayState)
    (i : TouchId) (h0 : s.joystickTouchId = none)
    (hm : 0 ≤ maxDistance cfg) (hr : 0 ≤ cfg.joystickSize) :
    processStartTouch cfg s
        ⟨i, (joystickCenter cfg s).1, (joystickCenter cfg s).2⟩ =
      ({ s with
          joystickTouchId := some i
          joyActive := true
          joyPos := (0, 0) },
       [OutEvent.joystickMove ⟨0, 0, 0, 0⟩]) := by
  have hh : hitTestJoystick cfg s (joystickCenter cfg s).1
      (joystickCenter cfg s).2 := by
    unfold hitTestJoystick
    simp only [sub_self, mul_zero, add_zero, Real.sqrt_zero]
    exact div_nonneg hr (by norm_num)
  rw [processStartTouch_joystick cfg s i _ _ h0 hh,
    moveJoystick_center cfg s hm]

/-- Witness for C10 at the default configuration and an 800 × 600
overlay. -/
theorem C10_center_touch_zero_update_witness :
    processStartTouch cfg0 state0
        ⟨4, (joystickCenter cfg0 state0).1, (joystickCenter cfg0 state0).2⟩ =
      ({ state0 with
          joystickTouchId := some 4
          joyActive := true
          joyPos := (0, 0) },
       [OutEvent.joystickMove ⟨0, 0, 0, 0⟩]) :=
  C10_center_touch_zero_update cfg0 state0 4 rfl
    (by norm_num [maxDistance, cfg0]) (by norm_num [cfg0])

/-- Absolute value of a complex number written from its parts. -/
lemma complex_abs_mk (dx dy : ℝ) :
    Complex.abs ⟨dx, dy⟩ = Real.sqrt (dx * dx + dy * dy) := by
  rw [Complex.abs_apply, Complex.normSq_mk]

/-- Cosine of the `atan2` angle is the normalized first component. -/
lemma cos_atan2 (dy dx : ℝ) (h : ¬(dx = 0 ∧ dy = 0)) :
    Real.cos (atan2 dy dx) = dx / Real.sqrt (dx * dx + dy * dy) := by
  unfold atan2
  rw [Complex.cos_arg (by
    intro hz0
    exact h ⟨congrArg Complex.re hz0, congrArg Complex.im hz0⟩),
    complex_abs_mk]

/-- Sine of the `atan2` angle is the normalized second component. -/
lemma sin_atan2 (dy dx : ℝ) :
    Real.sin (atan2 dy dx) = dy / Real.sqrt (dx * dx + dy * dy) := by
  unfold atan2
  rw [Complex.sin_arg, complex_abs_mk]

/-- Algebra of the clamped knob: beyond `maxTravel` the code's
`(cos·m, sin·m)` form is exactly the radial projection, it is collinear
with the raw offset, and its magnitude is exactly `m`. -/
lemma clamped_knob_algebra (a b m : ℝ) (hm : 0 < m)
    (hfar : m < Real.sqrt (a * a + b * b)) :
    (Real.cos (atan2 b a) * m, Real.sin (atan2 b a) * m) =
      specClampedOffset m a b ∧
    Real.cos (atan2 b a) * m * b = Real.sin (atan2 b a) * m * a ∧
    (Real.cos (atan2 b a) * m) ^ 2 + (Real.sin (atan2 b a) * m) ^ 2 =
      m ^ 2 := by
  have hA : 0 < a * a + b * b := by
    by_contra hc
    rw [Real.sqrt_eq_zero_of_nonpos (not_lt.mp hc)] at hfar
    linarith
  have hne : ¬(a = 0 ∧ b = 0) := by
    rintro ⟨rfl, rfl⟩
    norm_num at hA
  have hDpos : 0 < Real.sqrt (a * a + b * b) := lt_trans hm hfar
  have hD2 : Real.sqrt (a * a + b * b) ^ 2 = a * a + b * b :=
    Real.sq_sqrt hA.le
  rw [cos_atan2 b a hne, sin_atan2 b a]
  refine ⟨?_, by ring, ?_⟩
  · unfold specClampedOffset
    rw [if_pos hfar]
    simp only [Prod.mk.injEq]
    exact ⟨by ring, by ring⟩
  · field_simp
    ring

/-- C4 (amended): beyond `maxTravel` the rendered knob offset is the
radial projection of the offset (direction preserved, magnitude capped)
and the emitted distance is capped at 1; the normalized `(x, y)` output,
however, is the componentwise clamp of the scaled raw offset, not the
projection. -/
theorem C4_clamping_beyond_max_travel (cfg : Config) (s : OverlayState)
    (x y dx dy : ℝ) (hm : 0 < maxDistance cfg)
    (hdx : dx = x - (joystickCenter cfg s).1)
    (hdy : dy = y - (joystickCenter cfg s).2)
    (hfar : maxDistance cfg < Real.sqrt (dx * dx + dy * dy)) :
    (moveJoystickWithTouch cfg s x y).1 =
      specClampedOffset (maxDistance cfg) dx dy ∧
    (moveJoystickWithTouch cfg s x y).1.1 * dy =
      (moveJoystickWithTouch cfg s x y).1.2 * dx ∧
    (moveJoystickWithTouch cfg s x y).1.1 ^ 2 +
      (moveJoystickWithTouch cfg s x y).1.2 ^ 2 = maxDistance cfg ^ 2 ∧
    (moveJoystickWithTouch cfg s x y).2.x =
      clamp (dx / maxDistance cfg) (-1) 1 ∧
    (moveJoystickWithTouch cfg s x y).2.y =
      clamp (dy / maxDistance cfg) (-1) 1 ∧
    (moveJoystickWithTouch cfg s x y).2.distance = 1 := by
  subst hdx hdy
  obtain ⟨k1, k2, k3⟩ := clamped_knob_algebra (x - (joystickCenter cfg s).1)
    (y - (joystickCenter cfg s).2) (maxDistance cfg) hm hfar
  have hknob : (moveJoystickWithTouch cfg s x y).1 =
      (Real.cos (atan2 (y - (joystickCenter cfg s).2)
          (x - (joystickCenter cfg s).1)) * maxDistance cfg,
        Real.sin (atan2 (y - (joystickCenter cfg s).2)
          (x - (joystickCenter cfg s).1)) * maxDistance cfg) := by
    rw [moveJoystick_fst, if_pos hfar, if_pos hfar]
  have hxval : (moveJoystickWithTouch cfg s x y).2.x =
      max (-1) (min 1 ((x - (joystickCenter cfg s).1) / maxDistance cfg)) :=
    rfl
  have hyval : (moveJoystickWithTouch cfg s x y).2.y =
      max (-1) (min 1 ((y - (joystickCenter cfg s).2) / maxDistance cfg)) :=
    rfl
  have hdval : (moveJoystickWithTouch cfg s x y).2.distance =
      min (Real.sqrt ((x - (joystickCenter cfg s).1) *
        (x - (joystickCenter cfg s).1) +
        (y - (joystickCenter cfg s).2) * (y - (joystickCenter cfg s).2)) /
        maxDistance cfg) 1 := rfl
  refine ⟨hknob.trans k1, ?_, ?_, ?_, ?_, ?_⟩
  · rw [hknob]
    exact k2
  · rw [hknob]
    exact k3
  · rw [hxval, max_min_eq_clamp _ _ _ (by norm_num)]
  · rw [hyval, max_min_eq_clamp _ _ _ (by norm_num)]
  · rw [hdval, min_eq_right ((one_le_div hm).mpr hfar.le)]

/-- Counterexample for C4 as stated: at the default layout, a move to
offset `(100, 75)` (magnitude 125 > 50) yields normalized `x = 1`, while
the projection-determined normalized `x` would be `4/5`. -/
theorem C4_counterexample :
    (moveJoystickWithTouch cfg0 state0 200 565).2.x = 1 ∧
    (specClampedOffset (maxDistance cfg0) 100 75).1 / maxDistance cfg0 =
      4 / 5 ∧
    (1 : ℝ) ≠ 4 / 5 := by
  have hs : Real.sqrt (100 * 100 + 75 * 75) = 125 :=
    sqrt_num (by norm_num) (by norm_num)
  refine ⟨?_, ?_, by norm_num⟩
  · rw [moveJoystick_snd]
    norm_num [joystickCenter, state0, initState, cfg0, joystickLeft,
      joystickBottom, maxDistance, max_def, min_def]
  · unfold specClampedOffset
    rw [if_pos (by rw [hs]; norm_num [maxDistance, cfg0])]
    rw [hs]
    norm_num [maxDistance, cfg0]

/-- Witness for C4 (amended): the spec's own scenario, an offset of
magnitude `2 × maxTravel` along angle 90°, yields knob `(0, 50)`,
normalized output `(0, 1)` and distance `1`. -/
theorem C4_clamping_beyond_max_travel_witness :
    ((moveJoystickWithTouch cfg0 state0 100 590).1 =
      specClampedOffset (maxDistance cfg0) 0 100 ∧
    (moveJoystickWithTouch cfg0 state0 100 590).1.1 * 100 =
      (moveJoystickWithTouch cfg0 state0 100 590).1.2 * 0 ∧
    (moveJoystickWithTouch cfg0 state0 100 590).1.1 ^ 2 +
      (moveJoystickWithTouch cfg0 state0 100 590).1.2 ^ 2 =
      maxDistance cfg0 ^ 2 ∧
    (moveJoystickWithTouch cfg0 state0 100 590).2.x =
      clamp (0 / maxDistance cfg0) (-1) 1 ∧
    (moveJoystickWithTouch cfg0 state0 100 590).2.y =
      clamp (100 / maxDistance cfg0) (-1) 1 ∧
    (moveJoystickWithTouch cfg0 state0 100 590).2.distance = 1) ∧
    specClampedOffset (maxDistance cfg0) 0 100 = (0, 50) ∧
    clamp (0 / maxDistance cfg0) (-1) 1 = 0 ∧
    clamp (100 / maxDistance cfg0) (-1) 1 = 1 := by
  have hs : Real.sqrt (0 * 0 + 100 * 100) = 100 :=
    sqrt_num (by norm_num) (by norm_num)
  refine ⟨C4_clamping_beyond_max_travel cfg0 state0 100 590 0 100
    (by norm_num [maxDistance, cfg0])
    (by norm_num [joystickCenter, state0, initState, cfg0, joystickLeft,
      joystickBottom])
    (by norm_num [joystickCenter, state0, initState, cfg0, joystickLeft,
      joystickBottom])
    (by rw [hs]; norm_num [maxDistance, cfg0]), ?_, ?_, ?_⟩
  · unfold specClampedOffset
    rw [if_pos (by rw [hs]; norm_num [maxDistance, cfg0])]
    rw [hs]
    norm_num [maxDistance, cfg0]
  · norm_num [clamp, maxDistance, cfg0, max_def, min_def]
  · norm_num [clamp, maxDistance, cfg0, max_def, min_def]

/-- Hit at exact distance: if the squared distance equals the squared
(nonnegative) radius, the square-root test accepts. -/
lemma sqrt_le_radius_of_sq_eq {dx dy r : ℝ} (hr : 0 ≤ r)
    (h : dx ^ 2 + dy ^ 2 = r ^ 2) : Real.sqrt (dx * dx + dy * dy) ≤ r := by
  rw [show dx * dx + dy * dy = dx ^ 2 + dy ^ 2 by ring, h, Real.sqrt_sq hr]

/-- Miss beyond the radius: if the squared distance strictly exceeds the
squared (nonnegative) radius, the square-root test rejects. -/
lemma radius_lt_sqrt_of_sq_lt {dx dy r : ℝ} (hr : 0 ≤ r)
    (h : r ^ 2 < dx ^ 2 + dy ^ 2) : r < Real.sqrt (dx * dx + dy * dy) := by
  rw [show dx * dx + dy * dy = dx ^ 2 + dy ^ 2 by ring]
  exact (Real.lt_sqrt hr).mpr h

open Classical in
/-- The button hit test unfolded over the declared button order:
attack, then dodge, then jump, then run, first match wins. -/
lemma hitTestButtons_order (s : OverlayState) (x y : ℝ) :
    hitTestButtons s x y =
      if buttonHit s ⟨ActionType.attack, 20, 80⟩ x y then
        some ActionType.attack
      else if buttonHit s ⟨ActionType.dodge, 100, 20⟩ x y then
        some ActionType.dodge
      else if buttonHit s ⟨ActionType.jump, 100, 140⟩ x y then
        some ActionType.jump
      else if buttonHit s ⟨ActionType.run, 180, 80⟩ x y then
        some ActionType.run
      else none := by
  unfold hitTestButtons buttons
  by_cases h1 : buttonHit s ⟨ActionType.attack, 20, 80⟩ x y <;>
    by_cases h2 : buttonHit s ⟨ActionType.dodge, 100, 20⟩ x y <;>
    by_cases h3 : buttonHit s ⟨ActionType.jump, 100, 140⟩ x y <;>
    by_cases h4 : buttonHit s ⟨ActionType.run, 180, 80⟩ x y <;>
    simp [List.findSome?_cons, h1, h2, h3, h4]

/-- At an 800-wide, 600-high overlay, the point `(750, 490)` is the
attack button center, so the button scan returns attack. -/
lemma hitTestButtons_attack_center (s : OverlayState) (hw : s.width = 800)
    (hh : s.height = 600) :
    hitTestButtons s 750 490 = some ActionType.attack := by
  rw [hitTestButtons_order]
  rw [if_pos (by
    unfold buttonHit getButtonCenter
    rw [hw, hh]
    norm_num [buttonRadius, Real.sqrt_zero])]

/-- At a 600-high overlay with the default joystick, the point
`(750, 490)` is 650 pixels from the joystick center and misses it. -/
lemma hitTestJoystick_miss_750 (s : OverlayState) (hh : s.height = 600) :
    ¬hitTestJoystick cfg0 s 750 490 := by
  intro hcon
  unfold hitTestJoystick joystickCenter at hcon
  rw [hh] at hcon
  norm_num [joystickLeft, joystickBottom, cfg0] at hcon
  rw [sqrt_num (b := 650) (by norm_num) (by norm_num)] at hcon
  norm_num at hcon

open Classical in
/-- C5: hit tests are Euclidean with inclusive boundary; a begin touch
that does not claim the joystick is tested against the buttons in the
declared order attack, dodge, jump, run, binds to the first hit, and a
touch that hits nothing produces no binding and no event. -/
theorem C5_hit_test_semantics (cfg : Config) (s : OverlayState) (x y : ℝ)
    (i : TouchId) :
    buttons.map ButtonSpec.type =
      [ActionType.attack, ActionType.dodge, ActionType.jump,
        ActionType.run] ∧
    (0 ≤ cfg.joystickSize →
      (x - (joystickCenter cfg s).1) ^ 2 +
          (y - (joystickCenter cfg s).2) ^ 2 = (cfg.joystickSize / 2) ^ 2 →
      hitTestJoystick cfg s x y) ∧
    ((cfg.joystickSize / 2) ^ 2 <
        (x - (joystickCenter cfg s).1) ^ 2 +
          (y - (joystickCenter cfg s).2) ^ 2 →
      ¬hitTestJoystick cfg s x y) ∧
    (∀ b ∈ buttons,
      ((x - (getButtonCenter s b).1) ^ 2 +
          (y - (getButtonCenter s b).2) ^ 2 = buttonRadius ^ 2 →
        buttonHit s b x y) ∧
      (buttonRadius ^ 2 <
          (x - (getButtonCenter s b).1) ^ 2 +
            (y - (getButtonCenter s b).2) ^ 2 →
        ¬buttonHit s b x y)) ∧
    (hitTestButtons s x y =
      if buttonHit s ⟨ActionType.attack, 20, 80⟩ x y then
        some ActionType.attack
      else if buttonHit s ⟨ActionType.dodge, 100, 20⟩ x y then
        some ActionType.dodge
      else if buttonHit s ⟨ActionType.jump, 100, 140⟩ x y then
        some ActionType.jump
      else if buttonHit s ⟨ActionType.run, 180, 80⟩ x y then
        some ActionType.run
      else none) ∧
    (∀ a, ¬(s.joystickTouchId = none ∧ hitTestJoystick cfg s x y) →
      hitTestButtons s x y = some a →
      processStartTouch cfg s ⟨i, x, y⟩ =
        ({ s with
            buttonTouches := Function.update s.buttonTouches i (some a)
            pressedButtons := insert a s.pressedButtons },
         [OutEvent.buttonPress a])) ∧
    (¬(s.joystickTouchId = none ∧ hitTestJoystick cfg s x y) →
      hitTestButtons s x y = none →
      processStartTouch cfg s ⟨i, x, y⟩ = (s, [])) := by
  refine ⟨rfl, ?_, ?_, ?_, hitTestButtons_order s x y, ?_, ?_⟩
  · intro hr h
    exact sqrt_le_radius_of_sq_eq (div_nonneg hr (by norm_num)) h
  · intro h hcon
    by_cases hr : 0 ≤ cfg.joystickSize / 2
    · exact absurd hcon (not_le.mpr (radius_lt_sqrt_of_sq_lt hr h))
    · exact absurd hcon (not_le.mpr
        (lt_of_lt_of_le (not_le.mp hr) (Real.sqrt_nonneg _)))
  · intro b _
    refine ⟨fun h => ?_, fun h hcon => ?_⟩
    · exact sqrt_le_radius_of_sq_eq (by norm_num [buttonRadius]) h
    · exact absurd hcon (not_le.mpr
        (radius_lt_sqrt_of_sq_lt (by norm_num [buttonRadius]) h))
  · intro a hj hb
    exact processStartTouch_button cfg s ⟨i, x, y⟩ a hj hb
  · intro hj hb
    exact processStartTouch_inert cfg s ⟨i, x, y⟩ hj hb

/-- Witness for C5: boundary inclusivity at exactly the joystick radius
and the attack radius, rejection one pixel out, first-match binding on
the attack button, and inertness of a touch that hits nothing. -/
theorem C5_hit_test_semantics_witness :
    buttons.map ButtonSpec.type =
      [ActionType.attack, ActionType.dodge, ActionType.jump,
        ActionType.run] ∧
    hitTestJoystick cfg0 state0 170 490 ∧
    ¬hitTestJoystick cfg0 state0 171 490 ∧
    buttonHit state0 ⟨ActionType.attack, 20, 80⟩ 780 490 ∧
    ¬buttonHit state0 ⟨ActionType.attack, 20, 80⟩ 781 490 ∧
    hitTestButtons state0 750 490 = some ActionType.attack ∧
    processStartTouch cfg0 state0 ⟨7, 750, 490⟩ =
      ({ state0 with
          buttonTouches :=
            Function.update state0.buttonTouches 7 (some ActionType.attack)
          pressedButtons := insert ActionType.attack state0.pressedButtons },
       [OutEvent.buttonPress ActionType.attack]) ∧
    processStartTouch cfg0 state0 ⟨7, 400, 100⟩ = (state0, []) := by
  have hmiss400 : ¬hitTestJoystick cfg0 state0 400 100 :=
    (C5_hit_test_semantics cfg0 state0 400 100 7).2.2.1 (by
      norm_num [joystickCenter, state0, initState, cfg0, joystickLeft,
        joystickBottom])
  refine ⟨(C5_hit_test_semantics cfg0 state0 170 490 7).1,
    (C5_hit_test_semantics cfg0 state0 170 490 7).2.1 (by norm_num [cfg0])
      (by norm_num [joystickCenter, state0, initState, cfg0, joystickLeft,
        joystickBottom]),
    (C5_hit_test_semantics cfg0 state0 171 490 7).2.2.1 (by
      norm_num [joystickCenter, state0, initState, cfg0, joystickLeft,
        joystickBottom]),
    ((C5_hit_test_semantics cfg0 state0 780 490 7).2.2.2.1
      ⟨ActionType.attack, 20, 80⟩ (by simp [buttons])).1 (by
        norm_num [getButtonCenter, buttonRadius, state0, initState]),
    ((C5_hit_test_semantics cfg0 state0 781 490 7).2.2.2.1
      ⟨ActionType.attack, 20, 80⟩ (by simp [buttons])).2 (by
        norm_num [getButtonCenter, buttonRadius, state0, initState]),
    hitTestButtons_attack_center state0 rfl rfl,
    (C5_hit_test_semantics cfg0 state0 750 490 7).2.2.2.2.2.1
      ActionType.attack
      (fun hc => hitTestJoystick_miss_750 state0 rfl hc.2)
      (hitTestButtons_attack_center state0 rfl rfl),
    (C5_hit_test_semantics cfg0 state0 400 100 7).2.2.2.2.2.2
      (fun hc => hmiss400 hc.2) ?_⟩
  rw [hitTestButtons_order]
  rw [if_neg (((C5_hit_test_semantics cfg0 state0 400 100 7).2.2.2.1
      ⟨ActionType.attack, 20, 80⟩ (by simp [buttons])).2 (by
        norm_num [getButtonCenter, buttonRadius, state0, initState])),
    if_neg (((C5_hit_test_semantics cfg0 state0 400 100 7).2.2.2.1
      ⟨ActionType.dodge, 100, 20⟩ (by simp [buttons])).2 (by
        norm_num [getButtonCenter, buttonRadius, state0, initState])),
    if_neg (((C5_hit_test_semantics cfg0 state0 400 100 7).2.2.2.1
      ⟨ActionType.jump, 100, 140⟩ (by simp [buttons])).2 (by
        norm_num [getButtonCenter, buttonRadius, state0, initState])),
    if_neg (((C5_hit_test_semantics cfg0 state0 400 100 7).2.2.2.1
      ⟨ActionType.run, 180, 80⟩ (by simp [buttons])).2 (by
        norm_num [getButtonCenter, buttonRadius, state0, initState]))]

/-- Counterexample to C1 as stated: a well-formed begin batch with two
distinct touches at the attack button center leaves BOTH ids bound to the
attack button, refuting per-button exclusivity ("each individual button
is pressed by at most one touch"). -/
theorem C1_counterexample :
    WFRun cfg0 state0 [InEvent.start [⟨1, 750, 490⟩, ⟨2, 750, 490⟩]] ∧
    (run cfg0 state0
        [InEvent.start [⟨1, 750, 490⟩, ⟨2, 750, 490⟩]]).buttonTouches 1 =
      some ActionType.attack ∧
    (run cfg0 state0
        [InEvent.start [⟨1, 750, 490⟩, ⟨2, 750, 490⟩]]).buttonTouches 2 =
      some ActionType.attack ∧
    ¬ButtonUnique (run cfg0 state0
        [InEvent.start [⟨1, 750, 490⟩, ⟨2, 750, 490⟩]]) := by
  have h1 : processStartTouch cfg0 state0 ⟨1, 750, 490⟩ =
      ({ state0 with
          buttonTouches :=
            Function.update state0.buttonTouches 1 (some ActionType.attack)
          pressedButtons := insert ActionType.attack state0.pressedButtons },
       [OutEvent.buttonPress ActionType.attack]) :=
    processStartTouch_button cfg0 state0 ⟨1, 750, 490⟩ ActionType.attack
      (fun hc => hitTestJoystick_miss_750 state0 rfl hc.2)
      (hitTestButtons_attack_center state0 rfl rfl)
  have h2 : processStartTouch cfg0
      ({ state0 with
          buttonTouches :=
            Function.update state0.buttonTouches 1 (some ActionType.attack)
          pressedButtons := insert ActionType.attack state0.pressedButtons })
      ⟨2, 750, 490⟩ =
      ({ state0 with
          buttonTouches := Function.update
            (Function.update state0.buttonTouches 1 (some ActionType.attack))
            2 (some ActionType.attack)
          pressedButtons := insert ActionType.attack
            (insert ActionType.attack state0.pressedButtons) },
       [OutEvent.buttonPress ActionType.attack]) :=
    processStartTouch_button cfg0 _ ⟨2, 750, 490⟩ ActionType.attack
      (fun hc => hitTestJoystick_miss_750 _ rfl hc.2)
      (hitTestButtons_attack_center _ rfl rfl)
  have hrun : run cfg0 state0
      [InEvent.start [⟨1, 750, 490⟩, ⟨2, 750, 490⟩]] =
      { state0 with
          buttonTouches := Function.update
            (Function.update state0.buttonTouches 1 (some ActionType.attack))
            2 (some ActionType.attack)
          pressedButtons := insert ActionType.attack
            (insert ActionType.attack state0.pressedButtons) } := by
    show (runBatch (processStartTouch cfg0) state0
      [⟨1, 750, 490⟩, ⟨2, 750, 490⟩]).1 = _
    rw [runBatch_cons, h1]
    show (runBatch (processStartTouch cfg0) _ [⟨2, 750, 490⟩]).1 = _
    rw [runBatch_cons, h2]
    rfl
  refine ⟨⟨⟨?_, ?_⟩, trivial⟩, ?_, ?_, ?_⟩
  · simp
  · intro t ht
    rcases List.mem_cons.mp ht with rfl | ht2
    · simp [bindingOf, state0, initState]
    · rcases List.mem_singleton.mp ht2 with rfl
      simp [bindingOf, state0, initState]
  · rw [hrun]
    simp [Function.update_apply]
  · rw [hrun]
    simp [Function.update_apply]
  · intro hq
    have hb1 : (run cfg0 state0
        [InEvent.start [⟨1, 750, 490⟩, ⟨2, 750, 490⟩]]).buttonTouches 1 =
        some ActionType.attack := by
      rw [hrun]
      simp [Function.update_apply]
    have hb2 : (run cfg0 state0
        [InEvent.start [⟨1, 750, 490⟩, ⟨2, 750, 490⟩]]).buttonTouches 2 =
        some ActionType.attack := by
      rw [hrun]
      simp [Function.update_apply]
    have := hq 1 2 ActionType.attack hb1 hb2
    norm_num at this

/-! The `ActiveSync` invariant used as a hypothesis in the C6 theorem is
preserved by every handler, so it holds in every reachable state. -/

/-- Begin processing preserves active-flag synchronization. -/
lemma processStartTouch_sync (cfg : Config) (s : OverlayState) (t : Touch)
    (h : ActiveSync s) : ActiveSync (processStartTouch cfg s t).1 := by
  unfold processStartTouch startJoystickWithTouch
  split_ifs with hc
  · intro j hj
    rfl
  · rcases hbt : hitTestButtons s t.pageX t.pageY with _ | a
    · exact h
    · intro j hj
      exact h j hj

/-- End processing preserves active-flag synchronization. -/
lemma processEndTouch_sync (s : OverlayState) (t : Touch)
    (h : ActiveSync s) : ActiveSync (processEndTouch s t).1 := by
  unfold processEndTouch releaseJoystick
  by_cases hJ : s.joystickTouchId = some t.identifier
  · rw [if_pos hJ, if_pos (by rw [h _ hJ])]
    rcases hbt : s.buttonTouches t.identifier with _ | btn
    · simp only [hbt]
      intro j hj
      simp at hj
    · simp only [hbt]
      intro j hj
      simp at hj
  · rw [if_neg hJ]
    rcases hbt : s.buttonTouches t.identifier with _ | btn
    · simp only [hbt]
      exact h
    · simp only [hbt]
      intro j hj
      exact h j hj

/-- Move processing preserves active-flag synchronization. -/
lemma processMoveTouch_sync (cfg : Config) (s : OverlayState) (t : Touch)
    (h : ActiveSync s) : ActiveSync (processMoveTouch cfg s t).1 := by
  obtain ⟨h1, -, h3, -⟩ := processMoveTouch_fields cfg s t
  intro j hj
  rw [h1] at hj
  rw [h3]
  exact h j hj

/-- Every event batch preserves active-flag synchronization. -/
lemma step_sync (cfg : Config) (e : InEvent) :
    ∀ s : OverlayState, ActiveSync s → ActiveSync (step cfg s e).1 := by
  cases e with
  | start ts =>
      induction ts with
      | nil => exact fun s h => h
      | cons t ts ih =>
          intro s h
          show ActiveSync (runBatch (processStartTouch cfg) s (t :: ts)).1
          rw [runBatch_cons]
          exact ih _ (processStartTouch_sync cfg s t h)
  | move ts =>
      induction ts with
      | nil => exact fun s h => h
      | cons t ts ih =>
          intro s h
          show ActiveSync (runBatch (processMoveTouch cfg) s (t :: ts)).1
          rw [runBatch_cons]
          exact ih _ (processMoveTouch_sync cfg s t h)
  | touchEnd ts =>
      induction ts with
      | nil => exact fun s h => h
      | cons t ts ih =>
          intro s h
          show ActiveSync (runBatch processEndTouch s (t :: ts)).1
          rw [runBatch_cons]
          exact ih _ (processEndTouch_sync s t h)
  | touchCancel ts =>
      induction ts with
      | nil => exact fun s h => h
      | cons t ts ih =>
          intro s h
          show ActiveSync (runBatch processEndTouch s (t :: ts)).1
          rw [runBatch_cons]
          exact ih _ (processEndTouch_sync s t h)
  | layout w h =>
      intro s hs j hj
      obtain ⟨h1, -, h3, -, -⟩ := handleLayout_fields s w h
      rw [show (step cfg s (InEvent.layout w h)).1 = handleLayout s w h
        from rfl, h1] at hj
      rw [show (step cfg s (InEvent.layout w h)).1 = handleLayout s w h
        from rfl, h3]
      exact hs j hj

/-- Every trace preserves active-flag synchronization; together with
`run_excl` this discharges the hypotheses of the C6 theorem on every
reachable state. -/
lemma run_sync (cfg : Config) (evs : List InEvent) :
    ∀ s : OverlayState, ActiveSync s → ActiveSync (run cfg s evs) := by
  induction evs with
  | nil => exact fun s h => h
  | cons e evs ih => exact fun s h => ih _ (step_sync cfg e s h)

end Multitouch
